import Mathlib

/-!
Verification of the core of `cmd/prep/prep.go`: the constant-table builder
(the loop over `TypesInfo.Defs` in `main`), the query-call visitor
(`queryFinder.Visit`) and its resolver helper (`queryFinder.processQuery`).

The Go AST is embedded as the inductive `Node`; only the node shapes the
tool inspects (call expressions, selector expressions, basic literals,
identifiers) are distinguished, every other node kind is `Node.other`
holding its children.  Go maps keyed by strings are embedded as
association lists with first-match lookup; a Go map read returns the zero
value `""` for a missing key (`mapGet`).  `log.Fatalf` aborts the whole
run and is embedded as `Except.error (Failure.fatalLog msg)`; a slice
index out of range panics and is embedded as
`Except.error Failure.indexOutOfBounds`.
-/

set_option maxHeartbeats 1000000

/-- Embedded go/ast node shapes: call expressions (`Fun` and `Args`),
selector expressions (`X` and the selected name `Sel.Name`), basic
literals (their exact source text `Value`, quote delimiters included),
identifiers (`Name`), and every other node kind with its children. -/
inductive Node : Type where
  | callExpr (fn : Node) (args : List Node)
  | selectorExpr (x : Node) (sel : String)
  | basicLit (value : String)
  | ident (name : String)
  | other (children : List Node)

/-- Ways a run of the tool can abort: `log.Fatalf` with a message, or a
runtime panic from indexing `fCall.Args` out of range. -/
inductive Failure : Type where
  | fatalLog (msg : String)
  | indexOutOfBounds
deriving DecidableEq

/-- First-match lookup in an association list, embedding a Go
`map[string]string` read that distinguishes presence (`m[k]` with comma-ok). -/
def mapFind? (m : List (String × String)) (k : String) : Option String :=
  match m with
  | [] => none
  | (k2, v) :: rest => if k2 = k then some v else mapFind? rest k

/-- Presence test for a key, embedding the Go comma-ok map read. -/
def mapHas (m : List (String × String)) (k : String) : Bool :=
  match m with
  | [] => false
  | (k2, _) :: rest => if k2 = k then true else mapHas rest k

/-- Plain Go map read `m[k]`: the stored value, or the zero value `""`
when the key is absent. -/
def mapGet (m : List (String × String)) (k : String) : String :=
  (mapFind? m k).getD ""

/-- The `queryFinder` struct of prep.go: the constant table
(`packageInfo`), the accumulated query list (`queries`), and the set of
constant names declared more than once (`nonUniqueNames`). -/
structure queryFinder where
  packageInfo : List (String × String)
  queries : List String
  nonUniqueNames : List String

/-- The fixed table `methodImplements` of prep.go, mapping each
recognized method name to the interface it implements. -/
def methodImplements : List (String × String) :=
  [("ExecContext", "ExecContext"),
   ("QueryContext", "QueryContext"),
   ("QueryRowContext", "QueryRowContext"),
   ("NamedExecContext", "NamedExecContext"),
   ("GetContext", "GetContext"),
   ("SelectContext", "SelectContext"),
   ("NamedQueryContext", "NamedQueryContext"),
   ("PrepareContext", "PrepareContext"),
   ("PrepareNamedContext", "PrepareNamedContext")]

/-- The case list of the first `switch` arm in `Visit`: methods whose
query argument is `fCall.Args[1]`. -/
def indexOneMethods : List String :=
  ["ExecContext", "QueryContext", "QueryRowContext", "NamedExecContext",
   "NamedQueryContext", "PrepareContext", "PrepareNamedContext"]

/-- The case list of the second `switch` arm in `Visit`: methods whose
query argument is `fCall.Args[2]`. -/
def indexTwoMethods : List String :=
  ["GetContext", "SelectContext"]

/-- Embedding of `queryFinder.processQuery` of prep.go: a basic literal yields its
exact source text `q.Value`; an identifier in `nonUniqueNames` hits
`log.Fatalf("constant already defined, need unique name for %v", q.Name)`;
any other identifier yields the map read `f.packageInfo[q.Name]` (the
zero value `""` when unknown); every other expression shape yields `""`. -/
def queryFinder.processQuery (f : queryFinder) (queryArg : Node) :
    Except Failure String :=
  match queryArg with
  | Node.basicLit value => Except.ok value
  | Node.ident name =>
    if name ∈ f.nonUniqueNames then
      Except.error (Failure.fatalLog
        ("constant already defined, need unique name for " ++ name))
    else
      Except.ok (mapGet f.packageInfo name)
  | _ => Except.ok ""

/-- The `switch selector.Sel.Name` statement inside `Visit`: the first
arm reads `fCall.Args[1]`, the second arm reads `fCall.Args[2]` (either
index panics when the argument list is too short), and the implicit
default arm leaves `query` at its zero value `""`. -/
def extractQuery (f : queryFinder) (selName : String) (args : List Node) :
    Except Failure String :=
  if selName ∈ indexOneMethods then
    match args[1]? with
    | some a => f.processQuery a
    | none => Except.error Failure.indexOutOfBounds
  else if selName ∈ indexTwoMethods then
    match args[2]? with
    | some a => f.processQuery a
    | none => Except.error Failure.indexOutOfBounds
  else Except.ok ""

/-- Embedding of `queryFinder.Visit` of prep.go.  The returned `Bool` is whether the
returned `ast.Visitor` is non-nil, i.e. whether `ast.Walk` descends into
the children of this node: `true` stands for `return f` and `false` for
`return nil`.  A node that is not a call expression, or whose callee is
not a selector, or whose selector name has no entry in
`methodImplements`, is passed through with `return f`; otherwise the
query argument is extracted per the switch, appended to `f.queries` when
non-empty, and `nil` is returned. -/
def queryFinder.Visit (f : queryFinder) (node : Node) :
    Except Failure (queryFinder × Bool) :=
  match node with
  | Node.callExpr fn args =>
    match fn with
    | Node.selectorExpr _ selName =>
      if mapGet methodImplements selName = "" then
        Except.ok (f, true)
      else
        match extractQuery f selName args with
        | Except.error e => Except.error e
        | Except.ok query =>
          if query ≠ "" then
            Except.ok ({ f with queries := f.queries ++ [query] }, false)
          else
            Except.ok (f, false)
    | _ => Except.ok (f, true)
  | _ => Except.ok (f, true)

/-- Every embedded node has positive size (used for termination of the
walk). -/
theorem Node.sizeOf_pos (n : Node) : 0 < sizeOf n := by
  cases n <;> simp

mutual
/-- Embedding of `ast.Walk(f, n)` with the visitor state threaded explicitly: visit
the node, and when the returned visitor is non-nil walk its children.
The trailing `Visit(nil)` call of `ast.Walk` is the identity for this
visitor (a nil node is not a `*ast.CallExpr`) and is omitted. -/
def walk (f : queryFinder) (n : Node) : Except Failure queryFinder :=
  match f.Visit n with
  | Except.error e => Except.error e
  | Except.ok (f1, descend) =>
    if descend then walkChildren f1 n else Except.ok f1
termination_by (sizeOf n, 1)

/-- The per-node-kind child traversal of `ast.Walk`: a call expression
walks `Fun` then each argument, a selector expression walks `X` then the
selected identifier, literals and identifiers have no children, every
other node kind walks its children in order. -/
def walkChildren (f : queryFinder) (n : Node) : Except Failure queryFinder :=
  match n with
  | Node.callExpr fn args =>
    match walk f fn with
    | Except.error e => Except.error e
    | Except.ok f1 => walkList f1 args
  | Node.selectorExpr x sel =>
    match walk f x with
    | Except.error e => Except.error e
    | Except.ok f1 => walk f1 (Node.ident sel)
  | Node.basicLit _ => Except.ok f
  | Node.ident _ => Except.ok f
  | Node.other cs => walkList f cs
termination_by (sizeOf n, 0)
decreasing_by
  all_goals simp_wf
  all_goals apply Prod.Lex.left
  all_goals first
    | omega
    | (have hx := Node.sizeOf_pos x; omega)

/-- Walk a list of nodes in order, threading the visitor state; a fatal
failure aborts the remainder of the walk, as `log.Fatalf` exits the
process. -/
def walkList (f : queryFinder) (ns : List Node) : Except Failure queryFinder :=
  match ns with
  | [] => Except.ok f
  | n :: rest =>
    match walk f n with
    | Except.error e => Except.error e
    | Except.ok f1 => walkList f1 rest
termination_by (sizeOf ns, 2)
end

/-- The traversal loop of `main`: `for _, file := range astPackage.Files
{ ast.Walk(finder, file) }`, over the files in a given iteration order. -/
def runFiles (f : queryFinder) (files : List Node) : Except Failure queryFinder :=
  walkList f files

/-- A symbol definition as consumed by the table-building loop of `main`:
either a `*types.Const` carrying `constant.Val().ExactString()`, or any
other kind of object. -/
inductive SymbolDef : Type where
  | constDef (exactString : String)
  | otherDef
deriving DecidableEq

/-- Insertion into the Go set `map[string]struct{}`: adding a present key
leaves the set unchanged. -/
def insertName (s : List String) (k : String) : List String :=
  if k ∈ s then s else s ++ [k]

/-- The loop body of `main` over `sourcePackage.TypesInfo.Defs`: a
non-constant definition is skipped; a constant whose name is already in
`packageInfo` puts the name into `nonUniqueNames` and leaves the table
entry untouched; otherwise the name is bound to the exact string of the
constant value. -/
def buildLoop (tbl : List (String × String)) (amb : List String) :
    List (String × SymbolDef) → List (String × String) × List String
  | [] => (tbl, amb)
  | (k, SymbolDef.constDef v) :: rest =>
    if mapHas tbl k then buildLoop tbl (insertName amb k) rest
    else buildLoop (tbl ++ [(k, v)]) amb rest
  | (_, SymbolDef.otherDef) :: rest => buildLoop tbl amb rest

/-- The constant table and non-unique set produced by the loop of `main`
from the sequence of definition bindings, starting from the empty maps
the finder is created with. -/
def buildConstTable (defs : List (String × SymbolDef)) :
    List (String × String) × List String :=
  buildLoop [] [] defs

/-- Whether a symbol definition is a constant definition. -/
def isConstDef : SymbolDef → Bool
  | SymbolDef.constDef _ => true
  | SymbolDef.otherDef => false

/-- How many times a name is bound to a constant definition in the
consumed sequence. -/
def countConst (defs : List (String × SymbolDef)) (n : String) : Nat :=
  (defs.filter (fun kv => kv.1 == n && isConstDef kv.2)).length

/-- The value of the first constant definition bound to a name in the
consumed sequence, if any. -/
def firstConstVal (defs : List (String × SymbolDef)) (n : String) :
    Option String :=
  match defs with
  | [] => none
  | (k, SymbolDef.constDef v) :: rest =>
    if k = n then some v else firstConstVal rest n
  | (_, SymbolDef.otherDef) :: rest => firstConstVal rest n

/-- The common tail of `Visit` after the switch, applied to the resolver
result of a single extracted argument: a fatal resolution aborts, a
non-empty value is appended to `f.queries`, an empty value is skipped;
either way `nil` is returned (no descent). -/
def resolveAndAppend (f : queryFinder) (arg : Node) :
    Except Failure (queryFinder × Bool) :=
  match f.processQuery arg with
  | Except.error e => Except.error e
  | Except.ok query =>
    if query ≠ "" then
      Except.ok ({ f with queries := f.queries ++ [query] }, false)
    else
      Except.ok (f, false)

/-- Whether a node is recognized as a qualifying call: a call expression
whose callee is a selector whose method name has an entry in
`methodImplements`. -/
def isQualifyingCall : Node → Bool
  | Node.callExpr (Node.selectorExpr _ sel) _ =>
    mapGet methodImplements sel != ""
  | _ => false

/-- Membership in the first case list, spelled out. -/
theorem mem_indexOneMethods_iff (sel : String) :
    sel ∈ indexOneMethods ↔
      sel = "ExecContext" ∨ sel = "QueryContext" ∨ sel = "QueryRowContext" ∨
      sel = "NamedExecContext" ∨ sel = "NamedQueryContext" ∨
      sel = "PrepareContext" ∨ sel = "PrepareNamedContext" := by
  simp [indexOneMethods]

/-- Membership in the second case list, spelled out. -/
theorem mem_indexTwoMethods_iff (sel : String) :
    sel ∈ indexTwoMethods ↔ sel = "GetContext" ∨ sel = "SelectContext" := by
  simp [indexTwoMethods]

/-- Every method of the first case list has a non-empty entry in the
`methodImplements` table, so such a call is recognized. -/
theorem mapGet_ne_of_indexOne (sel : String) (h : sel ∈ indexOneMethods) :
    mapGet methodImplements sel ≠ "" := by
  rw [mem_indexOneMethods_iff] at h
  rcases h with h | h | h | h | h | h | h <;> subst h <;> decide

/-- Every method of the second case list has a non-empty entry in the
`methodImplements` table, so such a call is recognized. -/
theorem mapGet_ne_of_indexTwo (sel : String) (h : sel ∈ indexTwoMethods) :
    mapGet methodImplements sel ≠ "" := by
  rw [mem_indexTwoMethods_iff] at h
  rcases h with h | h <;> subst h <;> decide

/-- The two switch case lists are disjoint. -/
theorem not_indexOne_of_indexTwo (sel : String) (h : sel ∈ indexTwoMethods) :
    sel ∉ indexOneMethods := by
  rw [mem_indexTwoMethods_iff] at h
  rcases h with h | h <;> subst h <;> decide

/-- On a recognized call of the first shape whose argument list reaches
index 1, `Visit` behaves as the resolver-and-append tail applied to the
argument at index 1. -/
theorem Visit_qualifying_one (f : queryFinder) (recv : Node) (sel : String)
    (args : List Node) (a : Node)
    (h1 : sel ∈ indexOneMethods) (h2 : args[1]? = some a) :
    f.Visit (Node.callExpr (Node.selectorExpr recv sel) args) =
      resolveAndAppend f a := by
  have hi := mapGet_ne_of_indexOne sel h1
  cases hp : f.processQuery a <;>
    simp [queryFinder.Visit, extractQuery, resolveAndAppend, hi, h1, h2, hp]

/-- On a recognized call of the second shape whose argument list reaches
index 2, `Visit` behaves as the resolver-and-append tail applied to the
argument at index 2. -/
theorem Visit_qualifying_two (f : queryFinder) (recv : Node) (sel : String)
    (args : List Node) (a : Node)
    (h1 : sel ∈ indexTwoMethods) (h2 : args[2]? = some a) :
    f.Visit (Node.callExpr (Node.selectorExpr recv sel) args) =
      resolveAndAppend f a := by
  have hi := mapGet_ne_of_indexTwo sel h1
  have hn := not_indexOne_of_indexTwo sel h1
  cases hp : f.processQuery a <;>
    simp [queryFinder.Visit, extractQuery, resolveAndAppend, hi, h1, hn, h2, hp]

/-- A node that is not recognized as a qualifying call is passed through:
the state is unchanged and the walk descends into its children. -/
theorem Visit_not_qualifying (f : queryFinder) (node : Node)
    (h : isQualifyingCall node = false) :
    f.Visit node = Except.ok (f, true) := by
  cases node with
  | callExpr fn args =>
    cases fn with
    | selectorExpr x sel =>
      simp [isQualifyingCall] at h
      simp [queryFinder.Visit, h]
    | _ => simp [queryFinder.Visit]
  | _ => simp [queryFinder.Visit]

/-- The resolver fails only on an identifier in the non-unique set, and
then with the fatal message naming it. -/
theorem processQuery_error_iff_ambiguous (f : queryFinder) (arg : Node)
    (e : Failure) (h : f.processQuery arg = Except.error e) :
    ∃ n, arg = Node.ident n ∧ n ∈ f.nonUniqueNames ∧
      e = Failure.fatalLog
        ("constant already defined, need unique name for " ++ n) := by
  cases arg with
  | ident n =>
    by_cases hm : n ∈ f.nonUniqueNames
    · refine ⟨n, rfl, hm, ?_⟩
      simp [queryFinder.processQuery, hm] at h
      exact h.symm
    · simp [queryFinder.processQuery, hm] at h
  | basicLit v => simp [queryFinder.processQuery] at h
  | callExpr fn args => simp [queryFinder.processQuery] at h
  | selectorExpr x sel => simp [queryFinder.processQuery] at h
  | other cs => simp [queryFinder.processQuery] at h

/-- The resolver never reports the out-of-bounds failure; that failure
can only come from the argument indexing in the switch. -/
theorem processQuery_ne_oob (f : queryFinder) (a : Node) :
    f.processQuery a ≠ Except.error Failure.indexOutOfBounds := by
  intro h
  obtain ⟨n, _, _, he⟩ := processQuery_error_iff_ambiguous f a _ h
  simp at he

/-- The resolver-and-append tail never reports the out-of-bounds
failure. -/
theorem resolveAndAppend_ne_oob (f : queryFinder) (a : Node) :
    resolveAndAppend f a ≠ Except.error Failure.indexOutOfBounds := by
  intro h
  unfold resolveAndAppend at h
  cases hp : f.processQuery a with
  | error e =>
    rw [hp] at h
    injection h with h2
    subst h2
    exact processQuery_ne_oob f a hp
  | ok q =>
    rw [hp] at h
    by_cases hq : q = "" <;> simp [hq] at h

/-- Claim C1: a recognized qualifying call whose query argument is an
identifier in the non-unique set makes the resolver hit the fatal
diagnostic naming that identifier; the visit of the call reports exactly
that fatal failure (so no value is returned or appended), and the walk
of any node sequence starting at that call aborts with it, so the whole
run aborts. -/
theorem ambiguous_ident_resolution_aborts (f : queryFinder) (recv : Node)
    (sel : String) (args : List Node) (i : Nat) (n : String)
    (hq : (sel ∈ indexOneMethods ∧ i = 1) ∨ (sel ∈ indexTwoMethods ∧ i = 2))
    (harg : args[i]? = some (Node.ident n))
    (hamb : n ∈ f.nonUniqueNames) :
    f.processQuery (Node.ident n) =
      Except.error (Failure.fatalLog
        ("constant already defined, need unique name for " ++ n)) ∧
    f.Visit (Node.callExpr (Node.selectorExpr recv sel) args) =
      Except.error (Failure.fatalLog
        ("constant already defined, need unique name for " ++ n)) ∧
    ∀ rest : List Node,
      walkList f (Node.callExpr (Node.selectorExpr recv sel) args :: rest) =
        Except.error (Failure.fatalLog
          ("constant already defined, need unique name for " ++ n)) := by
  have hpq : f.processQuery (Node.ident n) =
      Except.error (Failure.fatalLog
        ("constant already defined, need unique name for " ++ n)) := by
    simp [queryFinder.processQuery, hamb]
  have hv : f.Visit (Node.callExpr (Node.selectorExpr recv sel) args) =
      Except.error (Failure.fatalLog
        ("constant already defined, need unique name for " ++ n)) := by
    rcases hq with ⟨h1, hi⟩ | ⟨h1, hi⟩
    · subst hi
      rw [Visit_qualifying_one f recv sel args _ h1 harg]
      simp [resolveAndAppend, hpq]
    · subst hi
      rw [Visit_qualifying_two f recv sel args _ h1 harg]
      simp [resolveAndAppend, hpq]
  refine ⟨hpq, hv, ?_⟩
  intro rest
  rw [walkList, walk, hv]

/-- Claim C2: the query argument of a recognized call is the one at the
index dictated by the switch case lists, index 1 for the first shape and
index 2 for the second; for the second shape the destination argument at
index 1 is never inspected, so replacing it changes nothing. -/
theorem visit_extracts_index_from_table (f : queryFinder) (recv : Node)
    (sel1 sel2 : String) (a0 a1 b1 a2 : Node) (rest : List Node) :
    (sel1 ∈ indexOneMethods →
      f.Visit (Node.callExpr (Node.selectorExpr recv sel1)
          (a0 :: a1 :: rest)) = resolveAndAppend f a1) ∧
    (sel2 ∈ indexTwoMethods →
      f.Visit (Node.callExpr (Node.selectorExpr recv sel2)
          (a0 :: a1 :: a2 :: rest)) = resolveAndAppend f a2 ∧
      f.Visit (Node.callExpr (Node.selectorExpr recv sel2)
          (a0 :: a1 :: a2 :: rest)) =
        f.Visit (Node.callExpr (Node.selectorExpr recv sel2)
          (a0 :: b1 :: a2 :: rest))) := by
  constructor
  · intro h1
    exact Visit_qualifying_one f recv sel1 (a0 :: a1 :: rest) a1 h1 (by simp)
  · intro h2
    have e1 := Visit_qualifying_two f recv sel2 (a0 :: a1 :: a2 :: rest) a2 h2 (by simp)
    have e2 := Visit_qualifying_two f recv sel2 (a0 :: b1 :: a2 :: rest) a2 h2 (by simp)
    exact ⟨e1, e1.trans e2.symm⟩

/-- The shapes of a query argument that resolve to no static value: any
expression that is neither a basic literal nor an identifier, or an
identifier that is neither ambiguous nor present in the constant table. -/
def notStaticallyResolvable (f : queryFinder) (arg : Node) : Prop :=
  match arg with
  | Node.basicLit _ => False
  | Node.ident n => n ∉ f.nonUniqueNames ∧ mapFind? f.packageInfo n = none
  | _ => True

/-- Claim C4: a recognized call whose query argument is an unknown
identifier or any other non-literal non-constant shape contributes no
value, the finder is unchanged and the visit returns normally; moreover
the only failing resolution whatsoever is an ambiguous identifier. -/
theorem unresolvable_argument_skipped (f : queryFinder) (recv : Node)
    (sel : String) (args : List Node) (i : Nat) (arg : Node)
    (hq : (sel ∈ indexOneMethods ∧ i = 1) ∨ (sel ∈ indexTwoMethods ∧ i = 2))
    (harg : args[i]? = some arg)
    (hshape : notStaticallyResolvable f arg) :
    f.Visit (Node.callExpr (Node.selectorExpr recv sel) args) =
      Except.ok (f, false) ∧
    (∀ arg2 e, f.processQuery arg2 = Except.error e →
      ∃ m, arg2 = Node.ident m ∧ m ∈ f.nonUniqueNames) := by
  have hpq : f.processQuery arg = Except.ok "" := by
    cases arg with
    | basicLit v => exact absurd hshape (by simp [notStaticallyResolvable])
    | ident m =>
      obtain ⟨hm, hnone⟩ := hshape
      simp [queryFinder.processQuery, hm, mapGet, hnone]
    | callExpr fn as => simp [queryFinder.processQuery]
    | selectorExpr x s => simp [queryFinder.processQuery]
    | other cs => simp [queryFinder.processQuery]
  have hres : resolveAndAppend f arg = Except.ok (f, false) := by
    simp [resolveAndAppend, hpq]
  constructor
  · rcases hq with ⟨h1, hi⟩ | ⟨h1, hi⟩
    · subst hi
      rw [Visit_qualifying_one f recv sel args arg h1 harg, hres]
    · subst hi
      rw [Visit_qualifying_two f recv sel args arg h1 harg, hres]
  · intro arg2 e he
    obtain ⟨m, hm1, hm2, _⟩ := processQuery_error_iff_ambiguous f arg2 e he
    exact ⟨m, hm1, hm2⟩

/-- Claim C5: a recognized call whose query argument is a basic literal
appends the literal value, which is the exact source text of the literal
token, quote delimiters included. -/
theorem literal_appended_verbatim (f : queryFinder) (recv : Node)
    (sel : String) (args : List Node) (i : Nat) (v : String)
    (hq : (sel ∈ indexOneMethods ∧ i = 1) ∨ (sel ∈ indexTwoMethods ∧ i = 2))
    (harg : args[i]? = some (Node.basicLit v))
    (hv : v ≠ "") :
    f.processQuery (Node.basicLit v) = Except.ok v ∧
    f.Visit (Node.callExpr (Node.selectorExpr recv sel) args) =
      Except.ok ({ f with queries := f.queries ++ [v] }, false) := by
  have hres : resolveAndAppend f (Node.basicLit v) =
      Except.ok ({ f with queries := f.queries ++ [v] }, false) := by
    simp [resolveAndAppend, queryFinder.processQuery, hv]
  refine ⟨rfl, ?_⟩
  rcases hq with ⟨h1, hi⟩ | ⟨h1, hi⟩
  · subst hi
    rw [Visit_qualifying_one f recv sel args _ h1 harg, hres]
  · subst hi
    rw [Visit_qualifying_two f recv sel args _ h1 harg, hres]

/-- Claim C10: the visitor checks no arity itself; with at least 2
arguments (first shape) or 3 (second shape) the embedded out-of-bounds
branch of the argument lookup is unreachable, and with fewer arguments
the unconditional indexing is exactly that out-of-bounds failure. -/
theorem argument_indexing_arity_precondition (f : queryFinder) (recv : Node)
    (sel1 sel2 : String) (args1 args2 args3 args4 : List Node) :
    (sel1 ∈ indexOneMethods →
      (2 ≤ args1.length →
        f.Visit (Node.callExpr (Node.selectorExpr recv sel1) args1) ≠
          Except.error Failure.indexOutOfBounds) ∧
      (args2.length < 2 →
        f.Visit (Node.callExpr (Node.selectorExpr recv sel1) args2) =
          Except.error Failure.indexOutOfBounds)) ∧
    (sel2 ∈ indexTwoMethods →
      (3 ≤ args3.length →
        f.Visit (Node.callExpr (Node.selectorExpr recv sel2) args3) ≠
          Except.error Failure.indexOutOfBounds) ∧
      (args4.length < 3 →
        f.Visit (Node.callExpr (Node.selectorExpr recv sel2) args4) =
          Except.error Failure.indexOutOfBounds)) := by
  constructor
  · intro h1
    constructor
    · intro hlen
      have hlt : 1 < args1.length := hlen
      have harg : args1[1]? = some args1[1] := List.getElem?_eq_getElem hlt
      rw [Visit_qualifying_one f recv sel1 args1 _ h1 harg]
      exact resolveAndAppend_ne_oob f _
    · intro hlen
      have hnone : args2[1]? = none := List.getElem?_eq_none (by omega)
      have hi := mapGet_ne_of_indexOne sel1 h1
      simp [queryFinder.Visit, extractQuery, hi, h1, hnone]
  · intro h2
    have hn := not_indexOne_of_indexTwo sel2 h2
    constructor
    · intro hlen
      have hlt : 2 < args3.length := hlen
      have harg : args3[2]? = some args3[2] := List.getElem?_eq_getElem hlt
      rw [Visit_qualifying_two f recv sel2 args3 _ h2 harg]
      exact resolveAndAppend_ne_oob f _
    · intro hlen
      have hnone : args4[2]? = none := List.getElem?_eq_none (by omega)
      have hi := mapGet_ne_of_indexTwo sel2 h2
      simp [queryFinder.Visit, extractQuery, hi, h2, hn, hnone]

/-- Claim C7: a node recognized as a qualifying call makes the visitor
return nil, so the walk does not descend into its subtree and continues
with the result state; every other node is passed through unchanged with
the walk descending into its children; and the walk of a sibling list
proceeds node by node, threading the state. -/
theorem traversal_descend_control (f : queryFinder) (node : Node)
    (f2 : queryFinder) (b : Bool)
    (h : f.Visit node = Except.ok (f2, b)) :
    (isQualifyingCall node = true →
      b = false ∧ walk f node = Except.ok f2) ∧
    (isQualifyingCall node = false →
      b = true ∧ f2 = f ∧ walk f node = walkChildren f node) ∧
    (∀ rest : List Node,
      walkList f (node :: rest) =
        match walk f node with
        | Except.error e => Except.error e
        | Except.ok f1 => walkList f1 rest) := by
  refine ⟨?_, ?_, ?_⟩
  · intro hqual
    have hb : b = false := by
      cases node with
      | callExpr fn args =>
        cases fn with
        | selectorExpr x sel =>
          simp [isQualifyingCall] at hqual
          simp [queryFinder.Visit, hqual] at h
          cases hex : extractQuery f sel args with
          | error e => rw [hex] at h; cases h
          | ok q =>
            rw [hex] at h
            by_cases hq : q = "" <;> simp [hq] at h <;> exact h.2
        | _ => simp [isQualifyingCall] at hqual
      | _ => simp [isQualifyingCall] at hqual
    subst hb
    refine ⟨rfl, ?_⟩
    rw [walk, h]
    simp
  · intro hqual
    have h2 := Visit_not_qualifying f node hqual
    rw [h2] at h
    injection h with h3
    injection h3 with h4 h5
    refine ⟨h5.symm, h4.symm, ?_⟩
    rw [walk, h2]
    subst h4
    simp
  · intro rest
    rw [walkList]

/-- Claim C8: a successful visit never touches the constant table or the
non-unique set, and extends the query list by at most one element,
preserving the previously accumulated prefix. -/
theorem visit_frame_conditions (f : queryFinder) (node : Node)
    (f2 : queryFinder) (b : Bool)
    (h : f.Visit node = Except.ok (f2, b)) :
    f2.packageInfo = f.packageInfo ∧
    f2.nonUniqueNames = f.nonUniqueNames ∧
    (f2.queries = f.queries ∨ ∃ q, f2.queries = f.queries ++ [q]) := by
  by_cases hqual : isQualifyingCall node = true
  · cases node with
    | callExpr fn args =>
      cases fn with
      | selectorExpr x sel =>
        simp [isQualifyingCall] at hqual
        simp [queryFinder.Visit, hqual] at h
        cases hex : extractQuery f sel args with
        | error e => rw [hex] at h; cases h
        | ok q =>
          rw [hex] at h
          by_cases hq : q = ""
          · simp [hq] at h
            rw [← h.1]
            exact ⟨rfl, rfl, Or.inl rfl⟩
          · simp [hq] at h
            rw [← h.1]
            exact ⟨rfl, rfl, Or.inr ⟨q, rfl⟩⟩
      | callExpr fn2 args2 => simp [isQualifyingCall] at hqual
      | basicLit v => simp [isQualifyingCall] at hqual
      | ident m => simp [isQualifyingCall] at hqual
      | other cs => simp [isQualifyingCall] at hqual
    | selectorExpr x sel => simp [isQualifyingCall] at hqual
    | basicLit v => simp [isQualifyingCall] at hqual
    | ident m => simp [isQualifyingCall] at hqual
    | other cs => simp [isQualifyingCall] at hqual
  · have h2 := Visit_not_qualifying f node (by simpa using hqual)
    rw [h2] at h
    injection h with h3
    injection h3 with h4 h5
    rw [← h4]
    exact ⟨rfl, rfl, Or.inl rfl⟩

/-- Claim C9: the run over the syntax trees is a pure function of the
constant table, the non-unique set, the accumulated list and the file
order; two finders agreeing on these produce identical results on the
same files in the same order. -/
theorem run_deterministic (f1 f2 : queryFinder) (files : List Node)
    (hpi : f1.packageInfo = f2.packageInfo)
    (hq : f1.queries = f2.queries)
    (hnu : f1.nonUniqueNames = f2.nonUniqueNames) :
    runFiles f1 files = runFiles f2 files := by
  obtain ⟨p1, q1, n1⟩ := f1
  obtain ⟨p2, q2, n2⟩ := f2
  simp only at hpi hq hnu
  subst hpi
  subst hq
  subst hnu
  rfl

/-- Key absence and failed lookup coincide. -/
theorem mapHas_false_iff (m : List (String × String)) (k : String) :
    mapHas m k = false ↔ mapFind? m k = none := by
  induction m with
  | nil => simp [mapHas, mapFind?]
  | cons kv rest ih =>
    obtain ⟨k2, v⟩ := kv
    by_cases h : k2 = k <;> simp [mapHas, mapFind?, h, ih]

/-- Lookup after appending one binding at the back: the old binding wins
when present, otherwise the new key answers. -/
theorem mapFind?_append_single (m : List (String × String))
    (k v n : String) :
    mapFind? (m ++ [(k, v)]) n =
      match mapFind? m n with
      | some w => some w
      | none => if k = n then some v else none := by
  induction m with
  | nil => simp [mapFind?]
  | cons kv rest ih =>
    obtain ⟨k2, w⟩ := kv
    by_cases h : k2 = n <;> simp [mapFind?, h, ih]

/-- Presence after appending one binding at the back. -/
theorem mapHas_append_single (m : List (String × String)) (k v n : String) :
    mapHas (m ++ [(k, v)]) n = (mapHas m n || decide (k = n)) := by
  induction m with
  | nil => simp [mapHas]
  | cons kv rest ih =>
    obtain ⟨k2, w⟩ := kv
    by_cases h : k2 = n <;> simp [mapHas, h, ih]

/-- Membership after the Go-style set insertion. -/
theorem mem_insertName (s : List String) (k n : String) :
    n ∈ insertName s k ↔ n ∈ s ∨ n = k := by
  unfold insertName
  by_cases h : k ∈ s
  · simp only [if_pos h]
    constructor
    · exact Or.inl
    · rintro (hn | hn)
      · exact hn
      · exact hn ▸ h
  · simp [if_neg h]

/-- Counting constant bindings through a constant-definition cons cell. -/
theorem countConst_cons_const (k v : String)
    (rest : List (String × SymbolDef)) (n : String) :
    countConst ((k, SymbolDef.constDef v) :: rest) n =
      if k = n then countConst rest n + 1 else countConst rest n := by
  by_cases h : k = n <;>
    simp [countConst, isConstDef, h, List.filter_cons]

/-- Counting constant bindings through a non-constant cons cell. -/
theorem countConst_cons_other (k : String)
    (rest : List (String × SymbolDef)) (n : String) :
    countConst ((k, SymbolDef.otherDef) :: rest) n = countConst rest n := by
  simp [countConst, isConstDef, List.filter_cons]

/-- Full characterization of the table-building loop, by induction over
the remaining bindings relative to an arbitrary accumulator: for a name
already present in the accumulated table, the entry never changes and the
name becomes non-unique as soon as one more constant binding of it is
consumed; for an absent name, the final entry is the value of its first
constant binding and the name becomes non-unique as soon as a second one
is consumed. -/
theorem buildLoop_lookup_spec (defs : List (String × SymbolDef))
    (tbl : List (String × String)) (amb : List String) (n : String) :
    (mapHas tbl n = true →
      mapFind? (buildLoop tbl amb defs).1 n = mapFind? tbl n ∧
      (n ∈ (buildLoop tbl amb defs).2 ↔
        n ∈ amb ∨ 1 ≤ countConst defs n)) ∧
    (mapHas tbl n = false →
      mapFind? (buildLoop tbl amb defs).1 n = firstConstVal defs n ∧
      (n ∈ (buildLoop tbl amb defs).2 ↔
        n ∈ amb ∨ 2 ≤ countConst defs n)) := by
  induction defs generalizing tbl amb with
  | nil =>
    constructor
    · intro hn
      simp [buildLoop, countConst]
    · intro hn
      simp [buildLoop, countConst, firstConstVal,
        (mapHas_false_iff tbl n).mp hn]
  | cons kv rest ih =>
    obtain ⟨k, d⟩ := kv
    cases d with
    | otherDef =>
      simpa [buildLoop, countConst_cons_other, firstConstVal] using ih tbl amb
    | constDef v =>
      cases hk : mapHas tbl k with
      | true =>
        have hstep :
            buildLoop tbl amb ((k, SymbolDef.constDef v) :: rest) =
              buildLoop tbl (insertName amb k) rest := by
          simp [buildLoop, hk]
        rw [hstep]
        constructor
        · intro hn
          have h1 := (ih tbl (insertName amb k)).1 hn
          refine ⟨h1.1, ?_⟩
          rw [h1.2, mem_insertName, countConst_cons_const]
          by_cases hkn : k = n
          · subst hkn
            by_cases hna : k ∈ amb <;> simp [hna]
          · have hnk : ¬n = k := fun e => hkn e.symm
            by_cases hna : n ∈ amb <;> simp [hkn, hnk, hna]
        · intro hn
          have hkn : k ≠ n := by
            intro e
            rw [e, hn] at hk
            cases hk
          have h2 := (ih tbl (insertName amb k)).2 hn
          refine ⟨?_, ?_⟩
          · rw [h2.1]
            simp [firstConstVal, hkn]
          · rw [h2.2, mem_insertName, countConst_cons_const, if_neg hkn]
            have : ¬n = k := fun e => hkn e.symm
            simp [this]
      | false =>
        have hstep :
            buildLoop tbl amb ((k, SymbolDef.constDef v) :: rest) =
              buildLoop (tbl ++ [(k, v)]) amb rest := by
          simp [buildLoop, hk]
        rw [hstep]
        by_cases hkn : k = n
        · subst hkn
          constructor
          · intro hn
            rw [hn] at hk
            cases hk
          · intro hn
            have hnone : mapFind? tbl k = none := (mapHas_false_iff tbl k).mp hk
            have hhas : mapHas (tbl ++ [(k, v)]) k = true := by
              rw [mapHas_append_single, hk]
              simp
            have h1 := (ih (tbl ++ [(k, v)]) amb).1 hhas
            refine ⟨?_, ?_⟩
            · rw [h1.1, mapFind?_append_single, hnone]
              simp [firstConstVal]
            · rw [h1.2, countConst_cons_const, if_pos rfl]
              by_cases hna : k ∈ amb <;> simp [hna]
        · have hfind : mapFind? (tbl ++ [(k, v)]) n = mapFind? tbl n := by
            rw [mapFind?_append_single]
            cases hf : mapFind? tbl n <;> simp [hkn]
          have hhas : mapHas (tbl ++ [(k, v)]) n = mapHas tbl n := by
            rw [mapHas_append_single]
            simp [hkn]
          constructor
          · intro hn
            have h1 := (ih (tbl ++ [(k, v)]) amb).1 (by rw [hhas]; exact hn)
            refine ⟨h1.1.trans hfind, ?_⟩
            rw [h1.2, countConst_cons_const, if_neg hkn]
          · intro hn
            have h2 := (ih (tbl ++ [(k, v)]) amb).2 (by rw [hhas]; exact hn)
            refine ⟨?_, ?_⟩
            · rw [h2.1]
              simp [firstConstVal, hkn]
            · rw [h2.2, countConst_cons_const, if_neg hkn]

/-- A name with at least one constant binding has a first constant
value. -/
theorem firstConstVal_isSome_of_count_pos (defs : List (String × SymbolDef))
    (n : String) (h : 1 ≤ countConst defs n) :
    (firstConstVal defs n).isSome = true := by
  induction defs with
  | nil => simp [countConst] at h
  | cons kv rest ih =>
    obtain ⟨k, d⟩ := kv
    cases d with
    | constDef v =>
      by_cases hk : k = n
      · simp [firstConstVal, hk]
      · rw [countConst_cons_const, if_neg hk] at h
        simp only [firstConstVal, if_neg hk]
        exact ih h
    | otherDef =>
      rw [countConst_cons_other] at h
      simp only [firstConstVal]
      exact ih h

/-- Claim C3: a name bound to a constant definition exactly once in the
consumed sequence ends up in the table with the exact textual form of
its value (the value of that single binding) and is never placed in the
non-unique set; a name consumed a second or further time as a constant
definition is placed in the non-unique set while its table entry stays
at the first value. -/
theorem constTable_unique_and_duplicate (defs : List (String × SymbolDef))
    (n : String) :
    (countConst defs n = 1 →
      mapFind? (buildConstTable defs).1 n = firstConstVal defs n ∧
      (firstConstVal defs n).isSome = true ∧
      n ∉ (buildConstTable defs).2) ∧
    (2 ≤ countConst defs n →
      n ∈ (buildConstTable defs).2 ∧
      mapFind? (buildConstTable defs).1 n = firstConstVal defs n) := by
  have h0 : mapHas ([] : List (String × String)) n = false := rfl
  have h := (buildLoop_lookup_spec defs [] [] n).2 h0
  constructor
  · intro hc
    refine ⟨h.1, firstConstVal_isSome_of_count_pos defs n (by omega), ?_⟩
    intro hmem
    have := h.2.mp hmem
    simp at this
    omega
  · intro hc
    refine ⟨h.2.mpr (Or.inr hc), h.1⟩

/-- Claim C6: with the table built from a definition sequence in which a
name has exactly one constant binding, a recognized call whose query
argument is that identifier appends the exact recorded constant value,
and the visit result is identical to the visit of the same call with the
defining literal written at the call site instead. -/
theorem unique_constant_resolves_like_literal
    (defs : List (String × SymbolDef)) (qs : List String) (recv : Node)
    (sel : String) (args : List Node) (i : Nat) (n v : String)
    (hcount : countConst defs n = 1)
    (hval : firstConstVal defs n = some v)
    (hv : v ≠ "")
    (hq : (sel ∈ indexOneMethods ∧ i = 1) ∨ (sel ∈ indexTwoMethods ∧ i = 2))
    (harg : args[i]? = some (Node.ident n)) :
    queryFinder.Visit
        { packageInfo := (buildConstTable defs).1, queries := qs,
          nonUniqueNames := (buildConstTable defs).2 }
        (Node.callExpr (Node.selectorExpr recv sel) args) =
      Except.ok
        ({ packageInfo := (buildConstTable defs).1, queries := qs ++ [v],
           nonUniqueNames := (buildConstTable defs).2 }, false) ∧
    queryFinder.Visit
        { packageInfo := (buildConstTable defs).1, queries := qs,
          nonUniqueNames := (buildConstTable defs).2 }
        (Node.callExpr (Node.selectorExpr recv sel) args) =
      queryFinder.Visit
        { packageInfo := (buildConstTable defs).1, queries := qs,
          nonUniqueNames := (buildConstTable defs).2 }
        (Node.callExpr (Node.selectorExpr recv sel)
          (args.set i (Node.basicLit v))) := by
  have h3 := (buildLoop_lookup_spec defs [] [] n).2 rfl
  have hfind : mapFind? (buildConstTable defs).1 n = some v := by
    rw [buildConstTable, h3.1, hval]
  have hnm : n ∉ (buildConstTable defs).2 := by
    intro hmem
    rw [buildConstTable] at hmem
    have := h3.2.mp hmem
    simp at this
    omega
  have hpq : queryFinder.processQuery
      { packageInfo := (buildConstTable defs).1, queries := qs,
        nonUniqueNames := (buildConstTable defs).2 } (Node.ident n) =
      Except.ok v := by
    simp [queryFinder.processQuery, hnm, mapGet, hfind]
  have hres : resolveAndAppend
      { packageInfo := (buildConstTable defs).1, queries := qs,
        nonUniqueNames := (buildConstTable defs).2 } (Node.ident n) =
      Except.ok
        ({ packageInfo := (buildConstTable defs).1, queries := qs ++ [v],
           nonUniqueNames := (buildConstTable defs).2 }, false) := by
    simp [resolveAndAppend, hpq, hv]
  have hres2 : resolveAndAppend
      { packageInfo := (buildConstTable defs).1, queries := qs,
        nonUniqueNames := (buildConstTable defs).2 } (Node.basicLit v) =
      Except.ok
        ({ packageInfo := (buildConstTable defs).1, queries := qs ++ [v],
           nonUniqueNames := (buildConstTable defs).2 }, false) := by
    simp [resolveAndAppend, queryFinder.processQuery, hv]
  rcases hq with ⟨h1, hi⟩ | ⟨h1, hi⟩
  · subst hi
    have hlt : 1 < args.length := by
      by_contra hle
      push_neg at hle
      rw [List.getElem?_eq_none hle] at harg
      cases harg
    have hset : (args.set 1 (Node.basicLit v))[1]? = some (Node.basicLit v) :=
      List.getElem?_set_eq_of_lt (Node.basicLit v) hlt
    have e1 := Visit_qualifying_one
      { packageInfo := (buildConstTable defs).1, queries := qs,
        nonUniqueNames := (buildConstTable defs).2 } recv sel args
      (Node.ident n) h1 harg
    have e2 := Visit_qualifying_one
      { packageInfo := (buildConstTable defs).1, queries := qs,
        nonUniqueNames := (buildConstTable defs).2 } recv sel
      (args.set 1 (Node.basicLit v)) (Node.basicLit v) h1 hset
    exact ⟨e1.trans hres, (e1.trans hres).trans ((e2.trans hres2).symm)⟩
  · subst hi
    have hlt : 2 < args.length := by
      by_contra hle
      push_neg at hle
      rw [List.getElem?_eq_none hle] at harg
      cases harg
    have hset : (args.set 2 (Node.basicLit v))[2]? = some (Node.basicLit v) :=
      List.getElem?_set_eq_of_lt (Node.basicLit v) hlt
    have e1 := Visit_qualifying_two
      { packageInfo := (buildConstTable defs).1, queries := qs,
        nonUniqueNames := (buildConstTable defs).2 } recv sel args
      (Node.ident n) h1 harg
    have e2 := Visit_qualifying_two
      { packageInfo := (buildConstTable defs).1, queries := qs,
        nonUniqueNames := (buildConstTable defs).2 } recv sel
      (args.set 2 (Node.basicLit v)) (Node.basicLit v) h1 hset
    exact ⟨e1.trans hres, (e1.trans hres).trans ((e2.trans hres2).symm)⟩

/-- Concrete instance of claim C1: resolving the ambiguous identifier
Dup aborts with the fatal diagnostic naming it. -/
theorem ambiguous_ident_resolution_aborts_witness :
    queryFinder.Visit
        { packageInfo := [("Q", "\"SELECT 1\"")], queries := [],
          nonUniqueNames := ["Dup"] }
        (Node.callExpr (Node.selectorExpr (Node.ident "db") "ExecContext")
          [Node.ident "ctx", Node.ident "Dup"]) =
      Except.error (Failure.fatalLog
        ("constant already defined, need unique name for " ++ "Dup")) :=
  (ambiguous_ident_resolution_aborts
    { packageInfo := [("Q", "\"SELECT 1\"")], queries := [],
      nonUniqueNames := ["Dup"] }
    (Node.ident "db") "ExecContext"
    [Node.ident "ctx", Node.ident "Dup"] 1 "Dup"
    (Or.inl ⟨by decide, rfl⟩) (by simp) (by decide)).2.1

/-- Concrete instance of claim C2: ExecContext extracts argument 1 and
GetContext extracts argument 2, ignoring the destination at index 1. -/
theorem visit_extracts_index_from_table_witness :
    (queryFinder.Visit
        { packageInfo := [("Q", "\"SELECT 1\"")], queries := [],
          nonUniqueNames := ["Dup"] }
        (Node.callExpr (Node.selectorExpr (Node.ident "db") "ExecContext")
          [Node.ident "ctx", Node.basicLit "\"A\""]) =
      resolveAndAppend
        { packageInfo := [("Q", "\"SELECT 1\"")], queries := [],
          nonUniqueNames := ["Dup"] } (Node.basicLit "\"A\"")) ∧
    (queryFinder.Visit
        { packageInfo := [("Q", "\"SELECT 1\"")], queries := [],
          nonUniqueNames := ["Dup"] }
        (Node.callExpr (Node.selectorExpr (Node.ident "db") "GetContext")
          [Node.ident "ctx", Node.basicLit "\"A\"", Node.basicLit "\"B\""]) =
      resolveAndAppend
        { packageInfo := [("Q", "\"SELECT 1\"")], queries := [],
          nonUniqueNames := ["Dup"] } (Node.basicLit "\"B\"") ∧
    queryFinder.Visit
        { packageInfo := [("Q", "\"SELECT 1\"")], queries := [],
          nonUniqueNames := ["Dup"] }
        (Node.callExpr (Node.selectorExpr (Node.ident "db") "GetContext")
          [Node.ident "ctx", Node.basicLit "\"A\"", Node.basicLit "\"B\""]) =
      queryFinder.Visit
        { packageInfo := [("Q", "\"SELECT 1\"")], queries := [],
          nonUniqueNames := ["Dup"] }
        (Node.callExpr (Node.selectorExpr (Node.ident "db") "GetContext")
          [Node.ident "ctx", Node.ident "dest", Node.basicLit "\"B\""])) :=
  ⟨(visit_extracts_index_from_table
      { packageInfo := [("Q", "\"SELECT 1\"")], queries := [],
        nonUniqueNames := ["Dup"] }
      (Node.ident "db") "ExecContext" "GetContext" (Node.ident "ctx")
      (Node.basicLit "\"A\"") (Node.ident "dest") (Node.basicLit "\"B\"")
      []).1 (by decide),
   (visit_extracts_index_from_table
      { packageInfo := [("Q", "\"SELECT 1\"")], queries := [],
        nonUniqueNames := ["Dup"] }
      (Node.ident "db") "ExecContext" "GetContext" (Node.ident "ctx")
      (Node.basicLit "\"A\"") (Node.ident "dest") (Node.basicLit "\"B\"")
      []).2 (by decide)⟩

/-- Concrete instance of claim C3: in a sequence binding Q once and D
twice as constants, Q keeps its exact value and stays unique while D is
marked non-unique with its entry at the first value. -/
theorem constTable_unique_and_duplicate_witness :
    (mapFind? (buildConstTable
        [("Q", SymbolDef.constDef "\"SELECT 1\""),
         ("D", SymbolDef.constDef "\"A\""),
         ("D", SymbolDef.constDef "\"B\""),
         ("x", SymbolDef.otherDef)]).1 "Q" =
      firstConstVal
        [("Q", SymbolDef.constDef "\"SELECT 1\""),
         ("D", SymbolDef.constDef "\"A\""),
         ("D", SymbolDef.constDef "\"B\""),
         ("x", SymbolDef.otherDef)] "Q" ∧
     (firstConstVal
        [("Q", SymbolDef.constDef "\"SELECT 1\""),
         ("D", SymbolDef.constDef "\"A\""),
         ("D", SymbolDef.constDef "\"B\""),
         ("x", SymbolDef.otherDef)] "Q").isSome = true ∧
     "Q" ∉ (buildConstTable
        [("Q", SymbolDef.constDef "\"SELECT 1\""),
         ("D", SymbolDef.constDef "\"A\""),
         ("D", SymbolDef.constDef "\"B\""),
         ("x", SymbolDef.otherDef)]).2) ∧
    ("D" ∈ (buildConstTable
        [("Q", SymbolDef.constDef "\"SELECT 1\""),
         ("D", SymbolDef.constDef "\"A\""),
         ("D", SymbolDef.constDef "\"B\""),
         ("x", SymbolDef.otherDef)]).2 ∧
     mapFind? (buildConstTable
        [("Q", SymbolDef.constDef "\"SELECT 1\""),
         ("D", SymbolDef.constDef "\"A\""),
         ("D", SymbolDef.constDef "\"B\""),
         ("x", SymbolDef.otherDef)]).1 "D" =
      firstConstVal
        [("Q", SymbolDef.constDef "\"SELECT 1\""),
         ("D", SymbolDef.constDef "\"A\""),
         ("D", SymbolDef.constDef "\"B\""),
         ("x", SymbolDef.otherDef)] "D") :=
  ⟨(constTable_unique_and_duplicate
      [("Q", SymbolDef.constDef "\"SELECT 1\""),
       ("D", SymbolDef.constDef "\"A\""),
       ("D", SymbolDef.constDef "\"B\""),
       ("x", SymbolDef.otherDef)] "Q").1 (by decide),
   (constTable_unique_and_duplicate
      [("Q", SymbolDef.constDef "\"SELECT 1\""),
       ("D", SymbolDef.constDef "\"A\""),
       ("D", SymbolDef.constDef "\"B\""),
       ("x", SymbolDef.otherDef)] "D").2 (by decide)⟩

/-- Concrete instance of claim C4: a query argument naming an unknown
runtime variable contributes nothing and the visit returns normally. -/
theorem unresolvable_argument_skipped_witness :
    queryFinder.Visit
        { packageInfo := [("Q", "\"SELECT 1\"")], queries := [],
          nonUniqueNames := ["Dup"] }
        (Node.callExpr (Node.selectorExpr (Node.ident "db") "QueryContext")
          [Node.ident "ctx", Node.ident "runtimeVar"]) =
      Except.ok
        ({ packageInfo := [("Q", "\"SELECT 1\"")], queries := [],
           nonUniqueNames := ["Dup"] }, false) :=
  (unresolvable_argument_skipped
    { packageInfo := [("Q", "\"SELECT 1\"")], queries := [],
      nonUniqueNames := ["Dup"] }
    (Node.ident "db") "QueryContext"
    [Node.ident "ctx", Node.ident "runtimeVar"] 1 (Node.ident "runtimeVar")
    (Or.inl ⟨by decide, rfl⟩) (by simp)
    (by exact ⟨by decide, by decide⟩)).1

/-- Concrete instance of claim C5: the literal query argument
appends exactly the quoted text of SELECT 1. -/
theorem literal_appended_verbatim_witness :
    queryFinder.Visit
        { packageInfo := [("Q", "\"SELECT 1\"")], queries := [],
          nonUniqueNames := ["Dup"] }
        (Node.callExpr (Node.selectorExpr (Node.ident "db") "QueryRowContext")
          [Node.ident "ctx", Node.basicLit "\"SELECT 1\""]) =
      Except.ok
        ({ packageInfo := [("Q", "\"SELECT 1\"")],
           queries := ["\"SELECT 1\""],
           nonUniqueNames := ["Dup"] }, false) :=
  (literal_appended_verbatim
    { packageInfo := [("Q", "\"SELECT 1\"")], queries := [],
      nonUniqueNames := ["Dup"] }
    (Node.ident "db") "QueryRowContext"
    [Node.ident "ctx", Node.basicLit "\"SELECT 1\""] 1 "\"SELECT 1\""
    (Or.inl ⟨by decide, rfl⟩) (by simp) (by decide)).2

/-- Concrete instance of claim C6: a GetContext call whose query names
the uniquely declared constant Q appends the exact recorded value. -/
theorem unique_constant_resolves_like_literal_witness :
    queryFinder.Visit
        { packageInfo :=
            (buildConstTable [("Q", SymbolDef.constDef "\"SELECT 1\"")]).1,
          queries := [],
          nonUniqueNames :=
            (buildConstTable [("Q", SymbolDef.constDef "\"SELECT 1\"")]).2 }
        (Node.callExpr (Node.selectorExpr (Node.ident "db") "GetContext")
          [Node.ident "ctx", Node.ident "dest", Node.ident "Q"]) =
      Except.ok
        ({ packageInfo :=
             (buildConstTable [("Q", SymbolDef.constDef "\"SELECT 1\"")]).1,
           queries := ["\"SELECT 1\""],
           nonUniqueNames :=
             (buildConstTable [("Q", SymbolDef.constDef "\"SELECT 1\"")]).2 },
         false) :=
  (unique_constant_resolves_like_literal
    [("Q", SymbolDef.constDef "\"SELECT 1\"")] [] (Node.ident "db")
    "GetContext" [Node.ident "ctx", Node.ident "dest", Node.ident "Q"] 2
    "Q" "\"SELECT 1\"" (by decide) (by decide) (by decide)
    (Or.inr ⟨by decide, rfl⟩) (by simp)).1

/-- Concrete instance of claim C7: a bare identifier node is passed
through unchanged and the walk descends into its children. -/
theorem traversal_descend_control_witness :
    true = true ∧
    ({ packageInfo := [("Q", "\"SELECT 1\"")], queries := [],
       nonUniqueNames := ["Dup"] } : queryFinder) =
      { packageInfo := [("Q", "\"SELECT 1\"")], queries := [],
        nonUniqueNames := ["Dup"] } ∧
    walk
        { packageInfo := [("Q", "\"SELECT 1\"")], queries := [],
          nonUniqueNames := ["Dup"] } (Node.ident "x") =
      walkChildren
        { packageInfo := [("Q", "\"SELECT 1\"")], queries := [],
          nonUniqueNames := ["Dup"] } (Node.ident "x") :=
  (traversal_descend_control
    { packageInfo := [("Q", "\"SELECT 1\"")], queries := [],
      nonUniqueNames := ["Dup"] }
    (Node.ident "x")
    { packageInfo := [("Q", "\"SELECT 1\"")], queries := [],
      nonUniqueNames := ["Dup"] } true rfl).2.1 (by decide)

/-- Concrete instance of claim C8: visiting a node leaves the table and
the non-unique set unchanged and at most appends to the query list. -/
theorem visit_frame_conditions_witness :
    ({ packageInfo := [("Q", "\"SELECT 1\"")], queries := [],
       nonUniqueNames := ["Dup"] } : queryFinder).packageInfo =
      ({ packageInfo := [("Q", "\"SELECT 1\"")], queries := [],
         nonUniqueNames := ["Dup"] } : queryFinder).packageInfo ∧
    ({ packageInfo := [("Q", "\"SELECT 1\"")], queries := [],
       nonUniqueNames := ["Dup"] } : queryFinder).nonUniqueNames =
      ({ packageInfo := [("Q", "\"SELECT 1\"")], queries := [],
         nonUniqueNames := ["Dup"] } : queryFinder).nonUniqueNames ∧
    (({ packageInfo := [("Q", "\"SELECT 1\"")], queries := [],
        nonUniqueNames := ["Dup"] } : queryFinder).queries =
      ({ packageInfo := [("Q", "\"SELECT 1\"")], queries := [],
         nonUniqueNames := ["Dup"] } : queryFinder).queries ∨
     ∃ q, ({ packageInfo := [("Q", "\"SELECT 1\"")], queries := [],
             nonUniqueNames := ["Dup"] } : queryFinder).queries =
       ({ packageInfo := [("Q", "\"SELECT 1\"")], queries := [],
          nonUniqueNames := ["Dup"] } : queryFinder).queries ++ [q]) :=
  visit_frame_conditions
    { packageInfo := [("Q", "\"SELECT 1\"")], queries := [],
      nonUniqueNames := ["Dup"] }
    (Node.other [])
    { packageInfo := [("Q", "\"SELECT 1\"")], queries := [],
      nonUniqueNames := ["Dup"] } true rfl

/-- Concrete instance of claim C9: equal finder components give equal
run results on the same file list. -/
theorem run_deterministic_witness :
    runFiles
        { packageInfo := [("Q", "\"SELECT 1\"")], queries := [],
          nonUniqueNames := ["Dup"] }
        [Node.ident "x", Node.other []] =
      runFiles
        { packageInfo := [("Q", "\"SELECT 1\"")], queries := [],
          nonUniqueNames := ["Dup"] }
        [Node.ident "x", Node.other []] :=
  run_deterministic
    { packageInfo := [("Q", "\"SELECT 1\"")], queries := [],
      nonUniqueNames := ["Dup"] }
    { packageInfo := [("Q", "\"SELECT 1\"")], queries := [],
      nonUniqueNames := ["Dup"] }
    [Node.ident "x", Node.other []] rfl rfl rfl

/-- Concrete instance of claim C10: two arguments suffice for
ExecContext and three for GetContext, while shorter argument lists hit
the out-of-bounds failure of the unchecked indexing. -/
theorem argument_indexing_arity_precondition_witness :
    (queryFinder.Visit
        { packageInfo := [("Q", "\"SELECT 1\"")], queries := [],
          nonUniqueNames := ["Dup"] }
        (Node.callExpr (Node.selectorExpr (Node.ident "db") "ExecContext")
          [Node.ident "ctx", Node.basicLit "\"A\""]) ≠
      Except.error Failure.indexOutOfBounds) ∧
    (queryFinder.Visit
        { packageInfo := [("Q", "\"SELECT 1\"")], queries := [],
          nonUniqueNames := ["Dup"] }
        (Node.callExpr (Node.selectorExpr (Node.ident "db") "ExecContext")
          []) =
      Except.error Failure.indexOutOfBounds) ∧
    (queryFinder.Visit
        { packageInfo := [("Q", "\"SELECT 1\"")], queries := [],
          nonUniqueNames := ["Dup"] }
        (Node.callExpr (Node.selectorExpr (Node.ident "db") "GetContext")
          [Node.ident "ctx", Node.ident "dest", Node.basicLit "\"A\""]) ≠
      Except.error Failure.indexOutOfBounds) ∧
    (queryFinder.Visit
        { packageInfo := [("Q", "\"SELECT 1\"")], queries := [],
          nonUniqueNames := ["Dup"] }
        (Node.callExpr (Node.selectorExpr (Node.ident "db") "GetContext")
          [Node.ident "ctx"]) =
      Except.error Failure.indexOutOfBounds) :=
  ⟨((argument_indexing_arity_precondition
      { packageInfo := [("Q", "\"SELECT 1\"")], queries := [],
        nonUniqueNames := ["Dup"] }
      (Node.ident "db") "ExecContext" "GetContext"
      [Node.ident "ctx", Node.basicLit "\"A\""] []
      [Node.ident "ctx", Node.ident "dest", Node.basicLit "\"A\""]
      [Node.ident "ctx"]).1 (by decide)).1 (by decide),
   ((argument_indexing_arity_precondition
      { packageInfo := [("Q", "\"SELECT 1\"")], queries := [],
        nonUniqueNames := ["Dup"] }
      (Node.ident "db") "ExecContext" "GetContext"
      [Node.ident "ctx", Node.basicLit "\"A\""] []
      [Node.ident "ctx", Node.ident "dest", Node.basicLit "\"A\""]
      [Node.ident "ctx"]).1 (by decide)).2 (by decide),
   ((argument_indexing_arity_precondition
      { packageInfo := [("Q", "\"SELECT 1\"")], queries := [],
        nonUniqueNames := ["Dup"] }
      (Node.ident "db") "ExecContext" "GetContext"
      [Node.ident "ctx", Node.basicLit "\"A\""] []
      [Node.ident "ctx", Node.ident "dest", Node.basicLit "\"A\""]
      [Node.ident "ctx"]).2 (by decide)).1 (by decide),
   ((argument_indexing_arity_precondition
      { packageInfo := [("Q", "\"SELECT 1\"")], queries := [],
        nonUniqueNames := ["Dup"] }
      (Node.ident "db") "ExecContext" "GetContext"
      [Node.ident "ctx", Node.basicLit "\"A\""] []
      [Node.ident "ctx", Node.ident "dest", Node.basicLit "\"A\""]
      [Node.ident "ctx"]).2 (by decide)).2 (by decide)⟩
